import Mathlib

/-!
Verification of the `@izzyjs/route` client routing engine
(`src/providers/izzy_provider.ts`: provider registration plus the
`Route` / `Routes` classes).

Strings are embedded as `List Char` so that every operation of the
source (first-occurrence replacement, splitting on `/`, the small
regular expressions built by the code) is an executable structural
recursion.  JavaScript regular expressions only occur in two restricted
shapes in this file of the source:

  * `params` matchers: literal characters interleaved with the capture
    group `([^/]+)` (one or more non-slash characters), tested
    unanchored with leftmost, greedy, backtracking semantics;
  * wildcard name patterns from `has` / `current`: the argument with
    every `*` replaced by `.*`, so the compiled regex consists of
    literal characters, `.` (any single character, coming from literal
    dots in the argument, left unescaped by the code) and `.*`.

Both shapes are embedded directly as small backtracking matchers with
the same semantics: in both, a literal dot of the original text is
compiled unescaped and therefore matches any character.  Characters
that are regex metacharacters other than `.` and `*` are modelled as
matching themselves; route names and paths in all claims use no other
regex metacharacter.  String replacement (`String.prototype.replace`
with a string pattern) is embedded including ECMAScript
GetSubstitution on the replacement value (`$$`, `$&`, dollar-backquote
and dollar-apostrophe patterns).
-/

namespace IzzyRoute

/-- Characters of a JavaScript string. -/
abbrev Str := List Char

/-- One serialized route definition, as produced by the serializer and
stored in the registry: name, HTTP method, path pattern with `:param`
segments, and the declared parameter names (`undefined` when the route
takes none). -/
structure SerializedRoute where
  name : Str
  method : Str
  path : Str
  params : Option (List Str)
deriving DecidableEq, Repr

/-- The registry snapshot shape: the route list and the raw current
path. -/
structure Snapshot where
  routes : List SerializedRoute
  current : Str
deriving DecidableEq, Repr

/-- The ambient JavaScript world as far as this module reads or writes
it: the environment flag returned by `isBrowser()`, the page-global
binding `window.__izzy_route__`, `window.location.pathname`, and the
two process-global bindings `globalThis.__izzy__` (written by the
provider in `#registerSsrRoutes`) and `globalThis.__izzy_route__`
(read by `Route.izzy`).  An unpopulated binding is `none`; reading a
field of it throws in JavaScript. -/
structure World where
  isBrowser : Bool
  windowIzzyRoute : Option Snapshot
  windowLocationPathname : Str
  globalIzzy : Option Snapshot
  globalIzzyRoute : Option Snapshot
deriving DecidableEq, Repr

/-- The error taxonomy of the module.  The source throws plain `Error`
values (or a `TypeError` when it reads a field of an unpopulated
global); the constructors carry exactly the data interpolated into the
corresponding message. -/
inductive Err where
  | registryUnavailable
  | routeNotFound (name : Str)
  | missingParams (name : Str) (required : List Str)
deriving DecidableEq, Repr

/-- `IzzyRouteProvider.#registerSsrRoutes(routes)`: writes
`globalThis.__izzy__ = { routes, current: "" }`. -/
def registerSsrRoutes (w : World) (routes : List SerializedRoute) : World :=
  { w with globalIzzy := some { routes := routes, current := [] } }

/-- `Route.izzy()`: if `isBrowser()` then read
`window.__izzy_route__.routes` and `window.location.pathname`,
otherwise read `globalThis.__izzy_route__.routes` and
`globalThis.__izzy_route__.current`.  Reading a field of an
unpopulated binding fails (`registryUnavailable`). -/
def Route.izzy (w : World) : Except Err Snapshot :=
  if w.isBrowser then
    match w.windowIzzyRoute with
    | none => .error .registryUnavailable
    | some s => .ok { routes := s.routes, current := w.windowLocationPathname }
  else
    match w.globalIzzyRoute with
    | none => .error .registryUnavailable
    | some s => .ok { routes := s.routes, current := s.current }

/-- `pat.isPrefixOf s` on character lists (written out so that all
later lemmas are self-contained). -/
def isPrefOf : Str → Str → Bool
  | [], _ => true
  | _ :: _, [] => false
  | c :: p, d :: s => c = d && isPrefOf p s

/-- Index of the first occurrence of `pat` as a contiguous substring of
`s` (the position JavaScript `String.prototype.replace` with a string
pattern rewrites). -/
def indexOfSub (s pat : Str) : Option Nat :=
  if isPrefOf pat s then some 0
  else
    match s with
    | [] => none
    | _ :: s' => (indexOfSub s' pat).map (· + 1)

/-- `s` contains `pat` as a contiguous substring. -/
def containsSub (s pat : Str) : Bool :=
  (indexOfSub s pat).isSome

/-- ECMAScript GetSubstitution applied to a replacement string for a
string-pattern `replace` (no capture groups): `$$` gives a dollar,
`$&` the matched text, a dollar followed by the code point 96
(backquote) the text before the match, a dollar followed by the code
point 39 (apostrophe) the text after the match; any other dollar is
literal. -/
def getSubstitution (matched pre suf : Str) : Str → Str
  | [] => []
  | c :: rest =>
    if c = '$' then
      match rest with
      | [] => [c]
      | d :: rest' =>
        if d = '$' then '$' :: getSubstitution matched pre suf rest'
        else if d = '&' then matched ++ getSubstitution matched pre suf rest'
        else if d = Char.ofNat 96 then pre ++ getSubstitution matched pre suf rest'
        else if d = Char.ofNat 39 then suf ++ getSubstitution matched pre suf rest'
        else c :: d :: getSubstitution matched pre suf rest'
    else c :: getSubstitution matched pre suf rest

/-- JavaScript `s.replace(pat, v)` with a string pattern: find the
first occurrence of `pat` in `s` and splice in the replacement string
as expanded by GetSubstitution (`$&` and friends); return `s`
unchanged when `pat` does not occur. -/
def jsReplaceFirst (s pat v : Str) : Str :=
  match indexOfSub s pat with
  | none => s
  | some i =>
    s.take i ++ getSubstitution pat (s.take i) (s.drop (i + pat.length)) v ++
      s.drop (i + pat.length)

/-- `Route.replaceRouteParams(routePath, params)`:
`Object.entries(params).reduce((acc, [key, value]) => acc.replace(convert(key), value), routePath)`
where the pattern is the literal token `:key`.  The association list
order is the iteration order of the supplied object. -/
def replaceRouteParams (routePath : Str) (params : List (Str × Str)) : Str :=
  params.foldl (fun acc kv => jsReplaceFirst acc (':' :: kv.1) kv.2) routePath

/-- `URLSearchParams(qs).toString()`, abstracting percent-encoding
(no claim exercises encoding): `k=v` pairs joined by `&`. -/
def qsToString (qs : List (Str × Str)) : Str :=
  List.intercalate ['&'] (qs.map (fun kv => kv.1 ++ '=' :: kv.2))

/-- The data held by a constructed `Route` instance. -/
structure RouteData where
  url : Str
  method : Str
  params : Option (List Str)
  name : Str
  pattern : Str
  path : Str
  qs : List (Str × Str)
deriving DecidableEq, Repr

/-- The tail of the `Route` private constructor after parameter
substitution: append `?<qs>` when the query string is non-empty,
prepend the prefix when it is truthy (prepending the empty prefix is
also the identity), and populate the instance fields. -/
def routeFinish (exist : SerializedRoute) (pat : Str) (qs : List (Str × Str))
    (pre : Str) : RouteData :=
  let withQs := if qsToString qs = [] then pat else pat ++ '?' :: qsToString qs
  let withPre := if pre = [] then withQs else pre ++ withQs
  { url := withPre
    method := exist.method
    params := exist.params
    name := exist.name
    pattern := exist.path
    path := withPre
    qs := qs }

/-- The `Route` private constructor, given the snapshot `Route.izzy()`
returned: find the first route whose `name` equals `routeName`
(`routes.find(...)`), throw `routeNotFound` when there is none; when
the definition declares params (`'params' in exist && exist.params`,
i.e. the field is present — note a present empty array is also truthy)
and the supplied `params` argument is falsy (`undefined`; a supplied
empty object is truthy and passes), throw `missingParams` listing the
declared names; otherwise substitute and finish. -/
def routeCtor (snap : Snapshot) (routeName : Str) (params? : Option (List (Str × Str)))
    (qs : List (Str × Str)) (pre : Str) : Except Err RouteData :=
  match snap.routes.find? (fun r => r.name == routeName) with
  | none => .error (.routeNotFound routeName)
  | some exist =>
    match exist.params with
    | some declared =>
      match params? with
      | none => .error (.missingParams routeName declared)
      | some supplied =>
          .ok (routeFinish exist (replaceRouteParams exist.path supplied) qs pre)
    | none => .ok (routeFinish exist exist.path qs pre)

/-! ### The `params` matcher

`Routes.params` builds, from a route path, the regex string
`path.split('/').map(p => p.startsWith(':') ? '([^/]+)' : p).join('/')`
and uses it unanchored both for `test` and for `match` (captures).
The regex is embedded as a list of items: literal characters and the
capture group `([^/]+)`. -/

/-- One item of a `params` matcher: an exact character, the regex dot
(any character except a line terminator, arising from literal dots in
path segments, which the code passes unescaped into `new RegExp`), or
the capture group `([^/]+)`. -/
inductive RItem where
  | lit (c : Char)
  | any
  | group
deriving DecidableEq, Repr

/-- ECMAScript LineTerminator code points (not matched by the regex
dot): LF, CR, LS, PS. -/
def isLineTerm (c : Char) : Bool :=
  c = Char.ofNat 10 || c = Char.ofNat 13 || c = Char.ofNat 0x2028 || c = Char.ofNat 0x2029

/-- `s.split(sep)` of JavaScript, on a single-character separator. -/
def splitOnChar (sep : Char) : Str → List Str
  | [] => [[]]
  | c :: s =>
    if c = sep then [] :: splitOnChar sep s
    else
      match splitOnChar sep s with
      | [] => [[c]]
      | p :: ps => (c :: p) :: ps

/-- `p.startsWith(':') ? '([^/]+)' : p` for one path segment.  A
non-parameter segment is interpolated unescaped into the regex source,
so its literal dots become the regex dot.  Segments containing any
other regex metacharacter (parentheses, brackets, quantifiers,
backslashes, ...) are outside the domain of this embedding; no claim
input contains one. -/
def segToItems (seg : Str) : List RItem :=
  match seg with
  | ':' :: _ => [RItem.group]
  | _ => seg.map (fun c => if c = '.' then RItem.any else RItem.lit c)

/-- `.join('/')` on the mapped segments. -/
def joinItems : List (List RItem) → List RItem
  | [] => []
  | [x] => x
  | x :: y :: xs => x ++ RItem.lit '/' :: joinItems (y :: xs)

/-- The matcher the code builds from a route path. -/
def toMatcher (path : Str) : List RItem :=
  joinItems ((splitOnChar '/' path).map segToItems)

/-- Backtracking matcher for a `params` regex at a fixed start
position, with JavaScript semantics: a match may end anywhere
(unanchored tail), `([^/]+)` consumes one or more non-`/` characters
greedily with backtracking.  `acc?` is the reversed text consumed so
far by an open group (`none` when no group is open).  `fuel` only
bounds the recursion; `2 * ps.length + s.length + 2` steps always
suffice (every step either consumes an item, consumes a character, or
closes the open group). -/
def rmatchAux : Nat → List RItem → Option Str → Str → Option (List Str)
  | 0, _, _, _ => none
  | _ + 1, [], none, _ => some []
  | f + 1, .lit c :: ps, none, s =>
    match s with
    | [] => none
    | d :: s' => if c = d then rmatchAux f ps none s' else none
  | f + 1, .any :: ps, none, s =>
    match s with
    | [] => none
    | d :: s' => if isLineTerm d then none else rmatchAux f ps none s'
  | f + 1, .group :: ps, none, s =>
    match s with
    | [] => none
    | d :: s' => if d = '/' then none else rmatchAux f ps (some [d]) s'
  | f + 1, ps, some acc, s =>
    match s with
    | [] => (rmatchAux f ps none []).map (fun caps => acc.reverse :: caps)
    | d :: s' =>
      if d = '/' then (rmatchAux f ps none s).map (fun caps => acc.reverse :: caps)
      else
        match rmatchAux f ps (some (d :: acc)) s' with
        | some r => some r
        | none => (rmatchAux f ps none s).map (fun caps => acc.reverse :: caps)

/-- Unanchored leftmost search: try every start position from the left
and return the captures of the first position that matches (exactly
what `regex.test` / `string.match` observe for these regexes). -/
def rsearch (ps : List RItem) : Str → Option (List Str)
  | [] => rmatchAux (2 * ps.length + 2) ps none []
  | c :: s' =>
    match rmatchAux (2 * ps.length + (c :: s').length + 2) ps none (c :: s') with
    | some caps => some caps
    | none => rsearch ps s'

/-- `new RegExp(<matcher for path>).test(current)`. -/
def routeMatches (path current : Str) : Bool :=
  (rsearch (toMatcher path) current).isSome

/-- A non-parameter segment as claim C1 words it: every character an
exact-match literal.  This definition follows the claim text
("leaving other segments literal"), not the source; it exists only to
be compared with the unescaped-regex semantics the code actually
has. -/
def claimLiteralSegToItems (seg : Str) : List RItem :=
  match seg with
  | ':' :: _ => [RItem.group]
  | _ => seg.map RItem.lit

/-- The matcher as claim C1 words it (see `claimLiteralSegToItems`). -/
def claimLiteralMatcher (path : Str) : List RItem :=
  joinItems ((splitOnChar '/' path).map claimLiteralSegToItems)

/-- Matching under the claim wording, with the same unanchored
search. -/
def claimLiteralMatches (path current : Str) : Bool :=
  (rsearch (claimLiteralMatcher path) current).isSome

/-! ### Wildcard name patterns

`has` and `current` compile `routeName.replace(/\*/g, '.*')` to a
regex.  In the compiled string, every `*` came from the replacement
(preceded by the inserted `.`), so parsing it yields: `anyStar` for
each original `*`, `any` for each original `.` (left unescaped by the
code, hence matching any character), and a literal for every other
original character. -/

/-- One item of a compiled wildcard pattern. -/
inductive WItem where
  | lit (c : Char)
  | any
  | anyStar
deriving DecidableEq, Repr

/-- Compile a wildcard argument, character by character. -/
def compileWildcard (pat : Str) : List WItem :=
  pat.map (fun c => if c = '*' then WItem.anyStar else if c = '.' then WItem.any else WItem.lit c)

/-- Backtracking match of a wildcard pattern against some prefix of
`s` (fuel-bounded; `ps.length + s.length + 1` steps suffice). -/
def wmatchAux : Nat → List WItem → Str → Bool
  | 0, _, _ => false
  | _ + 1, [], _ => true
  | f + 1, .lit c :: ps, s =>
    match s with
    | [] => false
    | d :: s' => c = d && wmatchAux f ps s'
  | f + 1, .any :: ps, s =>
    match s with
    | [] => false
    | _ :: s' => wmatchAux f ps s'
  | f + 1, .anyStar :: ps, s =>
    wmatchAux f ps s ||
      match s with
      | [] => false
      | _ :: s' => wmatchAux f (.anyStar :: ps) s'

/-- `new RegExp(compiled).test(s)`: unanchored search. -/
def wtest (ps : List WItem) : Str → Bool
  | [] => wmatchAux (ps.length + 1) ps []
  | c :: s' => wmatchAux (ps.length + (c :: s').length + 1) ps (c :: s') || wtest ps s'

/-- The state captured by the `Routes` constructor:
`this.routes` and `this.currentRoute`. -/
structure RoutesData where
  routes : List SerializedRoute
  currentRoute : Str
deriving DecidableEq, Repr

/-- The `Routes` constructor body applied to the snapshot it read. -/
def Routes.capture (s : Snapshot) : RoutesData :=
  { routes := s.routes, currentRoute := s.current }

/-- `new Routes()` in world `w`: read `Route.izzy()` and capture. -/
def Routes.construct (w : World) : Except Err RoutesData :=
  (Route.izzy w).map Routes.capture

/-- `Routes.has(routeName)`: wildcard arguments are compiled and tested
against every name; otherwise exact string equality against every
name. -/
def Routes.has (d : RoutesData) (routeName : Str) : Bool :=
  if routeName.contains '*' then
    d.routes.any (fun r => wtest (compileWildcard routeName) r.name)
  else
    d.routes.any (fun r => r.name == routeName)

/-- `Routes.params` (the getter): find the first route whose matcher
tests true against the captured current path; if it declares
parameters, rebuild the matcher, run `match` on the current path and
map each declared name (in declaration order) to the capture with the
same index (`values[index + 1]`; `none` models the JavaScript
`undefined` obtained when the declared list is longer than the capture
list); otherwise the empty mapping. -/
def Routes.params (d : RoutesData) : List (Str × Option Str) :=
  match d.routes.find? (fun r => routeMatches r.path d.currentRoute) with
  | none => []
  | some route =>
    match route.params with
    | none => []
    | some declared =>
      match rsearch (toMatcher route.path) d.currentRoute with
      | none => []
      | some values => declared.enum.map (fun ip => (ip.2, values.get? ip.1))

/-- Result of `Route.new`: either a constructed `Route` or the `Routes`
query facade. -/
inductive NewResult where
  | route (r : RouteData)
  | facade (q : RoutesData)
deriving DecidableEq, Repr

/-- `Route.new(routeName?, params?, qs?, prefix?)`: dispatches on the
falsiness of `routeName` (`undefined` or the empty string), returning
`new Routes()`; any truthy name goes to the private constructor, which
re-reads `Route.izzy()`. -/
def Route.new (w : World) (routeName : Option Str) (params? : Option (List (Str × Str)))
    (qs : List (Str × Str)) (pre : Str) : Except Err NewResult :=
  match routeName with
  | none => (Routes.construct w).map NewResult.facade
  | some n =>
    if n = [] then (Routes.construct w).map NewResult.facade
    else ((Route.izzy w).bind (fun s => routeCtor s n params? qs pre)).map NewResult.route

/-- Result of `Routes.current`: the raw current path (no-argument
form) or a boolean. -/
inductive CurrentResult where
  | path (p : Str)
  | bool (b : Bool)
deriving DecidableEq, Repr

/-- `Routes.current(routeName?, params?)`: a falsy `routeName`
(`undefined` or `""`) returns the captured raw current path; an
argument containing `*` is compiled and tested against the captured
current path; otherwise `Route.new(routeName, params)` resolves the
name — against the registry read at call time, not the captured
snapshot — and the result is compared to the captured current path by
string equality (an exception from the resolver propagates). -/
def Routes.current (w : World) (d : RoutesData) (routeName : Option Str)
    (params? : Option (List (Str × Str))) : Except Err CurrentResult :=
  match routeName with
  | none => .ok (.path d.currentRoute)
  | some n =>
    if n = [] then .ok (.path d.currentRoute)
    else if n.contains '*' then
      .ok (.bool (wtest (compileWildcard n) d.currentRoute))
    else
      ((Route.izzy w).bind (fun s => routeCtor s n params? [] [])).map
        (fun rt => .bool (d.currentRoute == rt.path))

/-! ### Structured route paths

For the substitution claim, a route path is viewed as a sequence of
pieces: literal text (which contains no `:`) and `:name` parameter
tokens.  `render` recovers the flat path string. -/

/-- A piece of a route path pattern. -/
inductive Piece where
  | txt (t : Str)
  | tok (n : Str)
deriving DecidableEq, Repr

/-- Flatten one piece. -/
def renderPiece : Piece → Str
  | .txt t => t
  | .tok n => ':' :: n

/-- Flatten a piece list to the path string. -/
def render : List Piece → Str
  | [] => []
  | p :: ps => renderPiece p ++ render ps

/-- The token names of a piece list, in order. -/
def tokNames : List Piece → List Str
  | [] => []
  | .txt _ :: ps => tokNames ps
  | .tok n :: ps => n :: tokNames ps

/-- A piece is clean when its text or name contains no `:`. -/
def PieceClean : Piece → Prop
  | .txt t => ':' ∉ t
  | .tok n => ':' ∉ n

instance instDecidablePieceClean : (p : Piece) → Decidable (PieceClean p)
  | .txt t => inferInstanceAs (Decidable (':' ∉ t))
  | .tok n => inferInstanceAs (Decidable (':' ∉ n))

/-- Replace the first token named `k` by the literal text `v`. -/
def replaceTok : List Piece → Str → Str → List Piece
  | [], _, _ => []
  | .txt t :: ps, k, v => .txt t :: replaceTok ps k v
  | .tok n :: ps, k, v => if n = k then .txt v :: ps else .tok n :: replaceTok ps k v

/-! ### Lemmas about `jsReplaceFirst` -/

/-- A replacement value without `$` is spliced in verbatim. -/
theorem getSubstitution_nodollar (v : Str) (hv : '$' ∉ v) :
    ∀ matched pre suf, getSubstitution matched pre suf v = v := by
  induction v with
  | nil => intro matched pre suf; rfl
  | cons c rest ih =>
    intro matched pre suf
    have hc : c ≠ '$' := fun h => hv (h ▸ List.mem_cons_self c rest)
    rw [getSubstitution.eq_def]
    simp [hc, ih (fun hm => hv (List.mem_cons_of_mem c hm))]

theorem jsReplaceFirst_of_pref (s pat v : Str) (hv : '$' ∉ v)
    (h : isPrefOf pat s = true) :
    jsReplaceFirst s pat v = v ++ s.drop pat.length := by
  have hidx : indexOfSub s pat = some 0 := by
    rw [indexOfSub.eq_def, if_pos h]
  unfold jsReplaceFirst
  rw [hidx]
  simp [getSubstitution_nodollar v hv]

theorem jsReplaceFirst_cons_of_not_pref (c : Char) (s pat v : Str) (hv : '$' ∉ v)
    (h : isPrefOf pat (c :: s) = false) :
    jsReplaceFirst (c :: s) pat v = c :: jsReplaceFirst s pat v := by
  have hidx : indexOfSub (c :: s) pat = (indexOfSub s pat).map (· + 1) := by
    rw [indexOfSub.eq_def, if_neg (by simp [h])]
  unfold jsReplaceFirst
  rw [hidx]
  cases indexOfSub s pat with
  | none => rfl
  | some i =>
    have hdrop : (c :: s).drop (i + 1 + pat.length) = s.drop (i + pat.length) := by
      rw [Nat.add_right_comm]
      rfl
    simp [getSubstitution_nodollar v hv, hdrop]

theorem jsReplaceFirst_nil (pat v : Str) (h : isPrefOf pat [] = false) :
    jsReplaceFirst [] pat v = [] := by
  have hidx : indexOfSub [] pat = none := by
    rw [indexOfSub.eq_def, if_neg (by simp [h])]
  unfold jsReplaceFirst
  rw [hidx]

theorem isPrefOf_append_self (p s : Str) : isPrefOf p (p ++ s) = true := by
  induction p with
  | nil => rfl
  | cons c p ih => simp [isPrefOf, ih]

theorem isPrefOf_cases_of_append (k n s : Str) (h : isPrefOf k (n ++ s) = true) :
    isPrefOf k n = true ∨ isPrefOf n k = true := by
  induction k generalizing n with
  | nil => exact Or.inl rfl
  | cons c k ih =>
    cases n with
    | nil => exact Or.inr rfl
    | cons d n =>
      simp only [List.cons_append, isPrefOf, Bool.and_eq_true, decide_eq_true_eq] at h
      obtain ⟨rfl, h2⟩ := h
      rcases ih n h2 with h3 | h3 <;>
        simp [isPrefOf, h3]

/-- Skipping a colon-free prefix: the replacement of a `:`-headed
pattern passes over text without `:`. -/
theorem jsReplaceFirst_append_left (t : Str) (ht : ':' ∉ t) (s k v : Str)
    (hv : '$' ∉ v) :
    jsReplaceFirst (t ++ s) (':' :: k) v = t ++ jsReplaceFirst s (':' :: k) v := by
  induction t with
  | nil => simp
  | cons c t ih =>
    have hc : ':' ≠ c := fun h => ht (h ▸ List.mem_cons_self c t)
    have hpre : isPrefOf (':' :: k) (c :: (t ++ s)) = false := by
      simp [isPrefOf, hc]
    rw [List.cons_append, jsReplaceFirst_cons_of_not_pref _ _ _ _ hv hpre,
      ih (fun hm => ht (List.mem_cons_of_mem c hm))]
    simp

/-- On a rendered piece list whose token names all belong to a
prefix-incomparable family containing `k`, replacing the first
occurrence of the literal token `:k` is exactly replacing the first
token named `k`. -/
theorem jsReplace_render (ps : List Piece) (k v : Str) (allNames : List Str)
    (hv : '$' ∉ v)
    (hclean : ∀ p ∈ ps, PieceClean p)
    (hinc : ∀ a ∈ allNames, ∀ b ∈ allNames, a ≠ b → isPrefOf a b = false)
    (hsub : ∀ n ∈ tokNames ps, n ∈ allNames)
    (hkAll : k ∈ allNames)
    (hk : k ∈ tokNames ps) :
    jsReplaceFirst (render ps) (':' :: k) v = render (replaceTok ps k v) := by
  induction ps with
  | nil => cases hk
  | cons p ps ih =>
    cases p with
    | txt t =>
      have ht : ':' ∉ t := hclean (.txt t) (List.mem_cons_self _ _)
      have hrec := ih (fun q hq => hclean q (List.mem_cons_of_mem _ hq)) hsub hk
      show jsReplaceFirst (t ++ render ps) (':' :: k) v = render (.txt t :: replaceTok ps k v)
      rw [jsReplaceFirst_append_left t ht _ _ _ hv, hrec]
      rfl
    | tok n =>
      by_cases hnk : n = k
      · subst hnk
        show jsReplaceFirst ((':' :: n) ++ render ps) (':' :: n) v =
          render (replaceTok (.tok n :: ps) n v)
        rw [jsReplaceFirst_of_pref _ _ _ hv (isPrefOf_append_self _ _), List.drop_left]
        simp [replaceTok, render, renderPiece]
      · have hnAll : n ∈ allNames := hsub n (by simp [tokNames])
        have hkps : k ∈ tokNames ps := by
          have := hk
          simp only [tokNames, List.mem_cons] at this
          exact this.resolve_left (fun h => hnk h.symm)
        have hpre : isPrefOf (':' :: k) (render (.tok n :: ps)) = false := by
          by_contra hcon
          have htrue : isPrefOf (':' :: k) (':' :: (n ++ render ps)) = true := by
            have : render (.tok n :: ps) = ':' :: (n ++ render ps) := by
              simp [render, renderPiece]
            rw [this] at hcon
            exact eq_true_of_ne_false hcon
          have hk2 : isPrefOf k (n ++ render ps) = true := by
            simpa [isPrefOf] using htrue
          rcases isPrefOf_cases_of_append k n _ hk2 with h | h
          · exact absurd h (by simp [hinc k hkAll n hnAll (fun hh => hnk hh.symm)])
          · exact absurd h (by simp [hinc n hnAll k hkAll hnk])
        have hn : ':' ∉ n := hclean (.tok n) (List.mem_cons_self _ _)
        have hrec := ih (fun q hq => hclean q (List.mem_cons_of_mem _ hq))
          (fun m hm => hsub m (by simp [tokNames, hm])) hkps
        have hrender : render (.tok n :: ps) = ':' :: (n ++ render ps) := by
          simp [render, renderPiece]
        rw [hrender] at hpre
        calc jsReplaceFirst (render (.tok n :: ps)) (':' :: k) v
            = ':' :: jsReplaceFirst (n ++ render ps) (':' :: k) v := by
              rw [hrender, jsReplaceFirst_cons_of_not_pref _ _ _ _ hv hpre]
          _ = ':' :: (n ++ jsReplaceFirst (render ps) (':' :: k) v) := by
              rw [jsReplaceFirst_append_left n hn _ _ _ hv]
          _ = render (replaceTok (.tok n :: ps) k v) := by
              simp [replaceTok, hnk, render, renderPiece, hrec]

/-- Drop the first occurrence of `k` from a name list. -/
def eraseFirstName : List Str → Str → List Str
  | [], _ => []
  | n :: ns, k => if n = k then ns else n :: eraseFirstName ns k

theorem eraseFirstName_eq_erase (m : List Str) (k : Str) :
    eraseFirstName m k = @List.erase Str instBEqOfDecidableEq m k := by
  induction m with
  | nil => rfl
  | cons n ns ih =>
    by_cases h : n = k <;>
      simp [eraseFirstName, List.erase_cons, h, ih]

theorem mem_eraseFirstName (m : List Str) (k n : Str) (h : n ∈ eraseFirstName m k) :
    n ∈ m := by
  induction m with
  | nil => cases h
  | cons a ns ih =>
    by_cases ha : a = k
    · simp only [eraseFirstName, if_pos ha] at h
      exact List.mem_cons_of_mem a h
    · simp only [eraseFirstName, if_neg ha] at h
      rcases List.mem_cons.mp h with rfl | h2
      · exact List.mem_cons_self _ _
      · exact List.mem_cons_of_mem a (ih h2)

theorem nodup_eraseFirstName (m : List Str) (k : Str) (h : m.Nodup) :
    (eraseFirstName m k).Nodup := by
  induction m with
  | nil => exact h
  | cons a ns ih =>
    rw [List.nodup_cons] at h
    by_cases ha : a = k
    · simpa [eraseFirstName, if_pos ha] using h.2
    · rw [eraseFirstName, if_neg ha, List.nodup_cons]
      exact ⟨fun hmem => h.1 (mem_eraseFirstName ns k a hmem), ih h.2⟩

/-- Token names after a replacement: the first `k` is dropped. -/
theorem tokNames_replaceTok (ps : List Piece) (k v : Str) :
    tokNames (replaceTok ps k v) = eraseFirstName (tokNames ps) k := by
  induction ps with
  | nil => rfl
  | cons p ps ih =>
    cases p with
    | txt t => simpa [replaceTok, tokNames] using ih
    | tok n =>
      by_cases hnk : n = k
      · subst hnk
        simp [replaceTok, tokNames, eraseFirstName]
      · simp [replaceTok, tokNames, hnk, eraseFirstName, ih]

/-- Cleanliness is preserved by replacement with a colon-free value. -/
theorem pieceClean_replaceTok (ps : List Piece) (k v : Str)
    (hclean : ∀ p ∈ ps, PieceClean p) (hv : ':' ∉ v) :
    ∀ p ∈ replaceTok ps k v, PieceClean p := by
  induction ps with
  | nil => simp [replaceTok]
  | cons p ps ih =>
    cases p with
    | txt t =>
      intro q hq
      rcases List.mem_cons.mp hq with rfl | hq2
      · exact hclean (.txt t) (List.mem_cons_self _ _)
      · exact ih (fun r hr => hclean r (List.mem_cons_of_mem _ hr)) q hq2
    | tok n =>
      by_cases hnk : n = k
      · subst hnk
        intro q hq
        simp only [replaceTok, if_pos rfl] at hq
        rcases List.mem_cons.mp hq with rfl | hq2
        · exact hv
        · exact hclean q (List.mem_cons_of_mem _ hq2)
      · intro q hq
        simp only [replaceTok, if_neg hnk] at hq
        rcases List.mem_cons.mp hq with rfl | hq2
        · exact hclean (.tok n) (List.mem_cons_self _ _)
        · exact ih (fun r hr => hclean r (List.mem_cons_of_mem _ hr)) q hq2

/-- Folding a supplied parameter list whose keys are a permutation of
the token names consumes every token. -/
theorem replaceRouteParams_render (supplied : List (Str × Str)) :
    ∀ (ps : List Piece) (allNames : List Str),
    (∀ p ∈ ps, PieceClean p) →
    (∀ a ∈ allNames, ∀ b ∈ allNames, a ≠ b → isPrefOf a b = false) →
    (∀ n ∈ tokNames ps, n ∈ allNames) →
    (tokNames ps).Nodup →
    List.Perm (supplied.map Prod.fst) (tokNames ps) →
    (∀ kv ∈ supplied, ':' ∉ kv.2 ∧ '$' ∉ kv.2) →
    ∃ qs : List Piece, replaceRouteParams (render ps) supplied = render qs ∧
      (∀ p ∈ qs, PieceClean p) ∧ tokNames qs = [] := by
  induction supplied with
  | nil =>
    intro ps allNames hclean _ _ _ hperm _
    exact ⟨ps, rfl, hclean, (hperm.symm.eq_nil)⟩
  | cons kv rest ih =>
    intro ps allNames hclean hinc hsub hnodup hperm hvals
    obtain ⟨k, v⟩ := kv
    have hperm' : List.Perm (k :: rest.map Prod.fst) (tokNames ps) := by
      simpa using hperm
    have hk : k ∈ tokNames ps :=
      (List.cons_perm_iff_perm_erase.mp hperm').1
    have hrest : List.Perm (rest.map Prod.fst) (eraseFirstName (tokNames ps) k) := by
      rw [eraseFirstName_eq_erase]
      exact (List.cons_perm_iff_perm_erase.mp hperm').2
    have hstep : replaceRouteParams (render ps) ((k, v) :: rest) =
        replaceRouteParams (jsReplaceFirst (render ps) (':' :: k) v) rest := rfl
    have hv : ':' ∉ v := (hvals (k, v) (List.mem_cons_self _ _)).1
    have hd : '$' ∉ v := (hvals (k, v) (List.mem_cons_self _ _)).2
    rw [hstep, jsReplace_render ps k v allNames hd hclean hinc hsub (hsub k hk) hk]
    have hres := ih (replaceTok ps k v) allNames
      (pieceClean_replaceTok ps k v hclean hv)
      hinc
      (fun n hn => hsub n (mem_eraseFirstName _ k n (tokNames_replaceTok ps k v ▸ hn)))
      (tokNames_replaceTok ps k v ▸ nodup_eraseFirstName _ k hnodup)
      (tokNames_replaceTok ps k v ▸ hrest)
      (fun q hq => hvals q (List.mem_cons_of_mem _ hq))
    exact hres

/-- A fully consumed clean piece list renders without any colon. -/
theorem render_no_colon (qs : List Piece)
    (hclean : ∀ p ∈ qs, PieceClean p) (htok : tokNames qs = []) :
    ':' ∉ render qs := by
  induction qs with
  | nil => simp [render]
  | cons p ps ih =>
    cases p with
    | txt t =>
      have ht : ':' ∉ t := hclean (.txt t) (List.mem_cons_self _ _)
      have := ih (fun q hq => hclean q (List.mem_cons_of_mem _ hq))
        (by simpa [tokNames] using htok)
      simp only [render, renderPiece, List.mem_append]
      rintro (h | h)
      · exact ht h
      · exact this h
    | tok n => simp [tokNames] at htok

/-- A colon-free string contains no `:`-headed substring. -/
theorem containsSub_colon_eq_false (s p : Str) (hs : ':' ∉ s) :
    containsSub s (':' :: p) = false := by
  have : indexOfSub s (':' :: p) = none := by
    induction s with
    | nil =>
      simp [indexOfSub, isPrefOf]
    | cons c s ih =>
      have hc : ':' ≠ c := fun h => hs (h ▸ List.mem_cons_self c s)
      have hpre : isPrefOf (':' :: p) (c :: s) = false := by
        simp [isPrefOf, hc]
      rw [indexOfSub, if_neg (by simp [hpre]), ih (fun h => hs (List.mem_cons_of_mem c h))]
      rfl
  simp [containsSub, this]

/-! ### First-occurrence characterization of `jsReplaceFirst` -/

theorem jsReplaceFirst_eq_indexOf (s pat v : Str) (hv : '$' ∉ v) :
    jsReplaceFirst s pat v =
      match indexOfSub s pat with
      | some i => s.take i ++ v ++ s.drop (i + pat.length)
      | none => s := by
  unfold jsReplaceFirst
  cases indexOfSub s pat with
  | none => rfl
  | some i => simp [getSubstitution_nodollar v hv]

theorem indexOfSub_spec (s : Str) : ∀ (pat : Str) (i : Nat), indexOfSub s pat = some i →
    isPrefOf pat (s.drop i) = true ∧ ∀ j, j < i → isPrefOf pat (s.drop j) = false := by
  induction s with
  | nil =>
    intro pat i h
    rw [indexOfSub] at h
    split at h
    · cases h
      exact ⟨by assumption, fun j hj => absurd hj (Nat.not_lt_zero j)⟩
    · cases h
  | cons c s ih =>
    intro pat i h
    rw [indexOfSub] at h
    split at h
    · cases h
      exact ⟨by assumption, fun j hj => absurd hj (Nat.not_lt_zero j)⟩
    · rename_i hnot
      cases hidx : indexOfSub s pat with
      | none => rw [hidx] at h; cases h
      | some i' =>
        rw [hidx] at h
        simp only [Option.map_some', Option.some.injEq] at h
        subst h
        obtain ⟨h1, h2⟩ := ih pat i' hidx
        refine ⟨h1, ?_⟩
        intro j hj
        cases j with
        | zero => simpa using Bool.eq_false_iff.mpr hnot
        | succ j' => exact h2 j' (Nat.lt_of_succ_lt_succ hj)

/-! ### Shared helper lemmas -/

/-- `routes.find(r => r.name === n)` misses iff no route carries the
name. -/
theorem find_name_none (routes : List SerializedRoute) (n : Str)
    (h : ∀ r ∈ routes, r.name ≠ n) :
    routes.find? (fun r => r.name == n) = none := by
  rw [List.find?_eq_none]
  intro x hx
  simp [h x hx]

/-- The constructor fails with the route-not-found error whenever no
route in the snapshot carries the requested name. -/
theorem routeCtor_absent (snap : Snapshot) (n : Str)
    (p : Option (List (Str × Str))) (qs : List (Str × Str)) (pre : Str)
    (h : ∀ r ∈ snap.routes, r.name ≠ n) :
    routeCtor snap n p qs pre = .error (.routeNotFound n) := by
  unfold routeCtor
  rw [find_name_none snap.routes n h]

/-- `Route.izzy` fails only with the unavailable-registry error. -/
theorem izzy_error_shape (w : World) (e : Err) (h : Route.izzy w = .error e) :
    e = .registryUnavailable := by
  unfold Route.izzy at h
  split at h <;> split at h <;> simp_all

/-! ### Fixtures (the scenario of the specification, section 8) -/

/-- The route definition of the specification scenario. -/
def usersShow : SerializedRoute :=
  { name := "users.show".toList
    method := "GET".toList
    path := "/users/:id".toList
    params := some ["id".toList] }

/-- Registry snapshot of the scenario: one route, current path
`/users/42`. -/
def usersSnapshot : Snapshot :=
  { routes := [usersShow], current := "/users/42".toList }

/-- The captured facade state for the scenario. -/
def usersData : RoutesData := Routes.capture usersSnapshot

/-- Same route list with current path `/users` (no match). -/
def usersNoMatchData : RoutesData :=
  { routes := [usersShow], currentRoute := "/users".toList }

/-- A route whose path contains a literal dot: `/x.y/:p`. -/
def dotRoute : SerializedRoute :=
  { name := "dot.show".toList
    method := "GET".toList
    path := "/x.y/:p".toList
    params := some ["p".toList] }

/-- Facade state: routes `[dotRoute]`, current path `/xZy/7`.  The
literal dot of the path matches the `Z`, because the code interpolates
the segment unescaped into the regex. -/
def dotData : RoutesData :=
  { routes := [dotRoute], currentRoute := "/xZy/7".toList }

/-- A route whose name starts with `group` but not with `group.`. -/
def groupXRoute : SerializedRoute :=
  { name := "groupX".toList, method := "GET".toList, path := "/g".toList, params := none }

/-- Facade state holding only `groupX`. -/
def groupData : RoutesData :=
  { routes := [groupXRoute], currentRoute := "/".toList }

/-- A parameterless route. -/
def homeRoute : SerializedRoute :=
  { name := "home".toList, method := "GET".toList, path := "/home".toList, params := none }

/-- Server-side snapshot holding `home`, current `/home`. -/
def homeSnapshot : Snapshot :=
  { routes := [homeRoute], current := "/home".toList }

/-- Server world whose `__izzy_route__` binding holds `homeSnapshot`. -/
def homeWorld : World :=
  { isBrowser := false
    windowIzzyRoute := none
    windowLocationPathname := []
    globalIzzy := none
    globalIzzyRoute := some homeSnapshot }

/-- `homeWorld` after the global registry is reassigned to an empty
route list. -/
def emptiedWorld : World :=
  { homeWorld with globalIzzyRoute := some { routes := [], current := "/home".toList } }

/-- A server world in which no global binding was ever populated. -/
def emptyServerWorld : World :=
  { isBrowser := false
    windowIzzyRoute := none
    windowLocationPathname := []
    globalIzzy := none
    globalIzzyRoute := none }

/-- Server world with an empty route list and current path `/x`. -/
def slashXSnapshot : Snapshot := { routes := [], current := "/x".toList }

/-- World carrying `slashXSnapshot` in `__izzy_route__`. -/
def slashXWorld : World :=
  { isBrowser := false
    windowIzzyRoute := none
    windowLocationPathname := []
    globalIzzy := none
    globalIzzyRoute := some slashXSnapshot }

/-! ### Claims -/

/-- Claim C2 (code bug): the accessor does fail when the expected
binding was never populated, but the process-global object written by
the provider is `globalThis.__izzy__` while `Route.izzy` reads
`globalThis.__izzy_route__`; after the provider registration the
accessor therefore still fails instead of returning the registered
routes. -/
theorem c2_registry_bug :
    Route.izzy emptyServerWorld = .error .registryUnavailable ∧
    (registerSsrRoutes emptyServerWorld [usersShow]).globalIzzy =
      some { routes := [usersShow], current := [] } ∧
    Route.izzy (registerSsrRoutes emptyServerWorld [usersShow]) =
      .error .registryUnavailable :=
  ⟨rfl, rfl, rfl⟩

/-- Claim C3, counterexample: `has("group.*")` returns `true` on a
list whose only name is `groupX`, which does not start with `group.`
(the dot of the wildcard argument is compiled unescaped, so it matches
any character). -/
theorem c3_has_counterexample :
    Routes.has groupData "group.*".toList = true ∧
    (∀ r ∈ groupData.routes, isPrefOf "group.".toList r.name = false) := by
  constructor
  · rfl
  · decide

/-- Claim C3 as amended: without a wildcard, `has` is true iff some
route name equals the argument exactly; with a wildcard, `has` is true
iff some route name matches the compiled pattern (each `*` giving
`.*`, each literal `.` of the argument matching any character, tested
unanchored). -/
theorem c3_has_amended (d : RoutesData) (n : Str) :
    (n.contains '*' = false →
      (Routes.has d n = true ↔ ∃ r ∈ d.routes, r.name = n)) ∧
    (n.contains '*' = true →
      (Routes.has d n = true ↔ ∃ r ∈ d.routes, wtest (compileWildcard n) r.name = true)) := by
  constructor
  · intro h
    unfold Routes.has
    rw [h]
    simp [List.any_eq_true]
  · intro h
    unfold Routes.has
    rw [h]
    simp [List.any_eq_true]

/-- Witness for C3 amended at a concrete facade and name. -/
theorem c3_has_witness :
    Routes.has groupData "groupX".toList = true ↔
      ∃ r ∈ groupData.routes, r.name = "groupX".toList :=
  (c3_has_amended groupData ("groupX".toList)).1 (by decide)

/-- Claim C4: resolution looks the name up by exact equality on
`name`; when no definition carries the name, the constructor fails
with the route-not-found error naming the missing route, and no
`RouteData` is produced. -/
theorem c4_route_not_found (snap : Snapshot) (n : Str)
    (p : Option (List (Str × Str))) (qs : List (Str × Str)) (pre : Str)
    (h : ∀ r ∈ snap.routes, r.name ≠ n) :
    routeCtor snap n p qs pre = .error (.routeNotFound n) :=
  routeCtor_absent snap n p qs pre h

/-- Witness for C4 at the scenario snapshot and an absent name. -/
theorem c4_route_not_found_witness :
    routeCtor usersSnapshot "nope".toList none [] [] =
      .error (.routeNotFound "nope".toList) :=
  c4_route_not_found usersSnapshot "nope".toList none [] [] (by decide)

/-- Claim C5: when the found definition declares a (non-empty)
parameter list and no parameters were supplied, the constructor fails
with the missing-parameters error carrying the declared names in
declaration order; when the definition declares no parameters, the
constructor succeeds and never raises that error. -/
theorem c5_missing_params (snap : Snapshot) (n : Str) (r : SerializedRoute)
    (hfind : snap.routes.find? (fun x => x.name == n) = some r) :
    (∀ l, r.params = some l → l ≠ [] →
      ∀ qs pre, routeCtor snap n none qs pre = .error (.missingParams n l)) ∧
    (r.params = none →
      ∀ p qs pre, routeCtor snap n p qs pre = .ok (routeFinish r r.path qs pre)) := by
  constructor
  · intro l hl _ qs pre
    simp [routeCtor, hfind, hl]
  · intro hnone p qs pre
    cases p <;> simp [routeCtor, hfind, hnone]

/-- Witness for C5: the scenario route declares `id`; resolving it
without parameters fails with the missing-parameters error. -/
theorem c5_missing_params_witness :
    routeCtor usersSnapshot "users.show".toList none [] [] =
      .error (.missingParams "users.show".toList ["id".toList]) :=
  (c5_missing_params usersSnapshot "users.show".toList usersShow rfl).1
    ["id".toList] rfl (by decide) [] []

/-- Does a `Route.new` outcome consist of the route-not-found error? -/
def isRouteNotFoundResult : Except Err NewResult → Bool
  | .error (.routeNotFound _) => true
  | _ => false

/-- Claim C10: `Route.new` dispatches on falsiness of the name, so the
empty-string name returns the `Routes` facade (constructed from the
registry read) and can never produce a route-not-found failure. -/
theorem c10_falsy_dispatch (w : World) (p : Option (List (Str × Str)))
    (qs : List (Str × Str)) (pre : Str) :
    Route.new w (some []) p qs pre = (Routes.construct w).map NewResult.facade ∧
    isRouteNotFoundResult (Route.new w (some []) p qs pre) = false := by
  refine ⟨rfl, ?_⟩
  show isRouteNotFoundResult ((Routes.construct w).map NewResult.facade) = false
  unfold Routes.construct
  cases h : Route.izzy w with
  | ok s => rfl
  | error e =>
    rw [izzy_error_shape w e h]
    rfl

/-- Claim C8, counterexample: a facade constructed from `homeWorld`
answers `current("home")` with `true`; after the global registry is
reassigned (`emptiedWorld`) the same facade instance answers the same
query with a route-not-found error, because the parameterized
`current` resolves the name through `Route.new`, which re-reads the
live global instead of the captured snapshot. -/
theorem c8_snapshot_counterexample :
    Routes.construct homeWorld = .ok (Routes.capture homeSnapshot) ∧
    Routes.current homeWorld (Routes.capture homeSnapshot) (some "home".toList) none =
      .ok (.bool true) ∧
    Routes.current emptiedWorld (Routes.capture homeSnapshot) (some "home".toList) none =
      .error (.routeNotFound "home".toList) :=
  ⟨rfl, rfl, rfl⟩

/-- Claim C8 as amended: the constructor captures the snapshot once;
`current()` with no arguments returns exactly the captured raw current
path, whatever the world looks like at query time (the no-argument
query never consults the global again).  The same holds for `has`,
`params` and wildcard `current`, which are functions of the captured
state only; the exception is parameterized `current(name, params)`,
whose resolution re-reads the live global. -/
theorem c8_snapshot_amended (w : World) (s : Snapshot)
    (h : Route.izzy w = .ok s) :
    Routes.construct w = .ok (Routes.capture s) ∧
    ∀ wLater : World,
      Routes.current wLater (Routes.capture s) none none = .ok (.path s.current) := by
  constructor
  · unfold Routes.construct
    rw [h]
    rfl
  · intro _
    rfl

/-- Witness for C8 amended: capture at `homeWorld`, query after the
reassignment to `emptiedWorld`. -/
theorem c8_snapshot_witness :
    Routes.construct homeWorld = .ok (Routes.capture homeSnapshot) ∧
    Routes.current emptiedWorld (Routes.capture homeSnapshot) none none =
      .ok (.path homeSnapshot.current) :=
  ⟨(c8_snapshot_amended homeWorld homeSnapshot rfl).1,
   (c8_snapshot_amended homeWorld homeSnapshot rfl).2 emptiedWorld⟩

/-- Claim C9, counterexample: the empty string is a non-wildcard name
absent from the route list, yet `current("")` neither returns `false`
nor propagates a route-not-found error — the falsiness check makes it
return the captured current path. -/
theorem c9_empty_name_counterexample :
    ("".toList.contains '*' = false) ∧
    (∀ r ∈ slashXSnapshot.routes, r.name ≠ "".toList) ∧
    Routes.current slashXWorld (Routes.capture slashXSnapshot) (some "".toList) none =
      .ok (.path "/x".toList) :=
  ⟨rfl, by decide, rfl⟩

/-- Claim C9 as amended: for a NONEMPTY non-wildcard name absent from
the route list the resolver reads at call time, `current` does not
return `false`; the route-not-found error propagates out (the empty
name instead returns the captured current path, see the
counterexample). -/
theorem c9_propagation_amended (w : World) (s : Snapshot) (n : Str)
    (p : Option (List (Str × Str)))
    (hw : Route.izzy w = .ok s)
    (hn : n ≠ [])
    (hstar : n.contains '*' = false)
    (habs : ∀ r ∈ s.routes, r.name ≠ n) :
    ∀ d : RoutesData,
      Routes.current w d (some n) p = .error (.routeNotFound n) := by
  intro d
  have hred : Routes.current w d (some n) p =
      if n = [] then .ok (.path d.currentRoute)
      else if n.contains '*' then .ok (.bool (wtest (compileWildcard n) d.currentRoute))
      else ((Route.izzy w).bind (fun s => routeCtor s n p [] [])).map
        (fun rt => .bool (d.currentRoute == rt.path)) := rfl
  rw [hred, if_neg hn, hstar, hw]
  simp only [Bool.false_eq_true, if_false, Except.bind,
    routeCtor_absent s n p [] [] habs, Except.map]

/-- Witness for C9 amended at a concrete world and name. -/
theorem c9_propagation_witness :
    Routes.current slashXWorld (Routes.capture slashXSnapshot) (some "nope".toList) none =
      .error (.routeNotFound "nope".toList) :=
  c9_propagation_amended slashXWorld slashXSnapshot "nope".toList none rfl
    (by decide) rfl (by decide) (Routes.capture slashXSnapshot)

/-- Claim C7: for a nonempty argument, `current` with a wildcard
compiles it (each `*` giving `.*`, other characters passed through
unescaped) and tests it against the raw captured current path;
without a wildcard it resolves the argument through the route
constructor and returns `true` exactly when the resolved path equals
the raw captured current path. -/
theorem c7_current_match (w : World) (d : RoutesData) (n : Str)
    (p : Option (List (Str × Str))) (hn : n ≠ []) :
    (n.contains '*' = true →
      Routes.current w d (some n) p =
        .ok (.bool (wtest (compileWildcard n) d.currentRoute))) ∧
    (n.contains '*' = false →
      ∀ rt : RouteData,
        (Route.izzy w).bind (fun s => routeCtor s n p [] []) = .ok rt →
        Routes.current w d (some n) p = .ok (.bool (d.currentRoute == rt.path)) ∧
        (Routes.current w d (some n) p = .ok (.bool true) ↔ d.currentRoute = rt.path)) := by
  have hred : Routes.current w d (some n) p =
      if n = [] then .ok (.path d.currentRoute)
      else if n.contains '*' then .ok (.bool (wtest (compileWildcard n) d.currentRoute))
      else ((Route.izzy w).bind (fun s => routeCtor s n p [] [])).map
        (fun rt => .bool (d.currentRoute == rt.path)) := rfl
  constructor
  · intro hstar
    rw [hred, if_neg hn, hstar]
    rfl
  · intro hstar rt hres
    rw [hred, if_neg hn, hstar, hres]
    refine ⟨rfl, ?_⟩
    simp only [Except.map]
    constructor
    · intro h
      have hb : (d.currentRoute == rt.path) = true := by
        simpa using h
      exact eq_of_beq hb
    · intro h
      simp [h]

/-- Witness for C7 at a concrete wildcard query. -/
theorem c7_current_match_witness :
    Routes.current homeWorld (Routes.capture homeSnapshot) (some "ho*".toList) none =
      .ok (.bool (wtest (compileWildcard "ho*".toList) "/home".toList)) :=
  (c7_current_match homeWorld (Routes.capture homeSnapshot) "ho*".toList none
    (by decide)).1 rfl

/-- Claim C1, counterexample: for route path `/x.y/:p` and current
path `/xZy/7`, no definition matches under the claim's reading of the
matcher (non-parameter segments exact-match literal), so the claim
requires the empty mapping there; the program interpolates the segment
unescaped into the regex, its dot matches the `Z`, and `params`
returns the mapping `p` to `7`. -/
theorem c1_params_counterexample :
    Routes.params dotData = [("p".toList, some "7".toList)] ∧
    (∀ r ∈ dotData.routes, claimLiteralMatches r.path dotData.currentRoute = false) := by
  constructor
  · decide
  · decide

/-- Claim C1 as amended: `params` takes the first route definition (in
list order) whose matcher — `:segment` pieces becoming
one-or-more-non-slash capture groups, other segments passed through
unescaped into the regex, so their literal dots match any character —
tests true against the captured current path; with no match, or a
first match that declares no parameters, it returns the empty mapping;
with declared parameters it maps each declared name, in declaration
order, to the correspondingly indexed capture.  On the scenario:
current `/users/42` gives `id` to `42`, current `/users` gives the
empty mapping, and path `/x.y/:p` against current `/xZy/7` gives `p`
to `7`. -/
theorem c1_params_amended :
    (∀ d : RoutesData,
      ((∀ r ∈ d.routes, routeMatches r.path d.currentRoute = false) →
        Routes.params d = []) ∧
      (∀ r : SerializedRoute,
        d.routes.find? (fun x => routeMatches x.path d.currentRoute) = some r →
        (r.params = none → Routes.params d = []) ∧
        (∀ declared values, r.params = some declared →
          rsearch (toMatcher r.path) d.currentRoute = some values →
          Routes.params d =
            declared.enum.map (fun ip => (ip.2, values.get? ip.1))))) ∧
    Routes.params usersData = [("id".toList, some "42".toList)] ∧
    Routes.params usersNoMatchData = [] ∧
    Routes.params dotData = [("p".toList, some "7".toList)] := by
  refine ⟨?_, by decide, by decide, by decide⟩
  intro d
  constructor
  · intro h
    have hfind : d.routes.find? (fun x => routeMatches x.path d.currentRoute) = none := by
      rw [List.find?_eq_none]
      intro x hx
      simp [h x hx]
    unfold Routes.params
    rw [hfind]
  · intro r hfind
    constructor
    · intro hnone
      unfold Routes.params
      rw [hfind]
      simp [hnone]
    · intro declared values hdecl hsearch
      unfold Routes.params
      rw [hfind]
      simp [hdecl, hsearch]

/-- Witness for C1 amended at the no-match scenario. -/
theorem c1_params_witness : Routes.params usersNoMatchData = [] :=
  (c1_params_amended.1 usersNoMatchData).1 (by decide)

/-- Claim C6, counterexample: supplying exactly the declared parameter
`id` of `/users/:id` — a path with no colliding names — with value
`$&` leaves the `:id` marker in place, because `replace` runs the
value through GetSubstitution, where `$&` reinserts the matched token;
a plain value that itself spells a token, such as `:id`, also leaves
the marker.  Both refute the claimed zero-remaining-markers
conclusion. -/
theorem c6_substitution_counterexample :
    replaceRouteParams "/users/:id".toList [("id".toList, "$&".toList)] =
      "/users/:id".toList ∧
    containsSub
      (replaceRouteParams "/users/:id".toList [("id".toList, "$&".toList)])
      (':' :: "id".toList) = true ∧
    replaceRouteParams "/users/:id".toList [("id".toList, ":id".toList)] =
      "/users/:id".toList := by
  refine ⟨by decide, by decide, by decide⟩

/-- Claim C6 as amended: `replaceRouteParams` folds the supplied pairs
in iteration order, each step replacing exactly the first occurrence
of the literal token `:key` with the value as expanded by the JS
replacement rules — a value without `$` is spliced verbatim at the
first occurrence index (first conjunct), and that index is minimal
(second conjunct).  For a path made of colon-free literal pieces and
`:name` tokens whose names are distinct, mutually prefix-incomparable
and colon-free (the claim bars colliding names), supplying exactly the
declared parameters — in any iteration order, with values free of `:`
and of `$` (a `:` in a value spells a new token and a `$` triggers
GetSubstitution, see the counterexample) — leaves no `:name` marker
for any declared name. -/
theorem c6_substitution_amended :
    (∀ s pat v : Str, '$' ∉ v →
      jsReplaceFirst s pat v =
        match indexOfSub s pat with
        | some i => s.take i ++ v ++ s.drop (i + pat.length)
        | none => s) ∧
    (∀ (s pat : Str) (i : Nat), indexOfSub s pat = some i →
      isPrefOf pat (s.drop i) = true ∧ ∀ j, j < i → isPrefOf pat (s.drop j) = false) ∧
    (∀ (ps : List Piece) (supplied : List (Str × Str)),
      (∀ p ∈ ps, PieceClean p) →
      (∀ a ∈ tokNames ps, ∀ b ∈ tokNames ps, a ≠ b → isPrefOf a b = false) →
      (tokNames ps).Nodup →
      List.Perm (supplied.map Prod.fst) (tokNames ps) →
      (∀ kv ∈ supplied, ':' ∉ kv.2 ∧ '$' ∉ kv.2) →
      ∀ n ∈ tokNames ps,
        containsSub (replaceRouteParams (render ps) supplied) (':' :: n) = false) := by
  refine ⟨fun s pat v hv => jsReplaceFirst_eq_indexOf s pat v hv, indexOfSub_spec, ?_⟩
  intro ps supplied hclean hinc hnodup hperm hvals n _
  obtain ⟨qs, heq, hq1, hq2⟩ :=
    replaceRouteParams_render supplied ps (tokNames ps) hclean hinc
      (fun m hm => hm) hnodup hperm hvals
  rw [heq]
  exact containsSub_colon_eq_false _ _ (render_no_colon qs hq1 hq2)

/-- Witness for C6 amended on the scenario path `/users/:id` supplied
with `id = 42`: no `:id` marker remains. -/
theorem c6_substitution_witness :
    containsSub
      (replaceRouteParams
        (render [Piece.txt "/users/".toList, Piece.tok "id".toList])
        [("id".toList, "42".toList)])
      (':' :: "id".toList) = false :=
  c6_substitution_amended.2.2 [Piece.txt "/users/".toList, Piece.tok "id".toList]
    [("id".toList, "42".toList)] (by decide) (by decide) (by decide)
    (List.Perm.refl _) (by decide) ("id".toList) (by decide)

end IzzyRoute
